import Mathlib

/-!
Verification of the worker-orchestration core of the membership-token
indexer data loader (dispatcher, signatures loader, transactions loader).

The Rust sources are shallowly embedded as pure Lean functions:
stateful loops become explicit state passing over per-tick inputs,
fallible calls return Except values, and a call of unwrap on an error
value is modelled as the Panic outcome.  External collaborators
(tokio channels, serde_json, the indexer_core storage engine and RPC
client) are modelled at the granularity the spec describes them.
-/

namespace DataLoader

/-- Transaction signatures are base58 text; we treat them as opaque strings. -/
abbrev Sig := String

/-- One element of the page returned by load_signatures_batch: the source
only reads its signature field. -/
structure SignatureRecord where
  signature : Sig
deriving DecidableEq

/-- Encoded transaction bodies are opaque to the orchestration core. -/
abbrev Tx := String

/-- Connection configuration for the RPC collaborator (indexer_core), opaque here. -/
abbrev SolanaRpcClientConfig := String

/-- Storage configuration (indexer_core), opaque here. -/
abbrev StorageConfig := String

/-- The indexer_core Config value, reduced to the two accessors the workers use. -/
structure Config where
  solana_rpc_client_config : SolanaRpcClientConfig
  storage_config : StorageConfig
deriving DecidableEq

/-- Outcome of code that calls unwrap on an error: the task terminates. -/
inductive Panic
  | panicked
deriving DecidableEq

/-- Error returned by a tokio broadcast send when no receivers are subscribed. -/
inductive SendError
  | noReceivers
deriving DecidableEq

/-- A tokio broadcast send: fails exactly when no receivers remain,
otherwise returns the number of receivers. -/
def broadcastSend (receivers : Nat) : Except SendError Nat :=
  if receivers = 0 then .error .noReceivers else .ok receivers

/-- The send(..).unwrap() pattern used throughout the source: a send
failure panics the sending task. -/
def sendUnwrap (receivers : Nat) : Except Panic Nat :=
  match broadcastSend receivers with
  | .ok k => .ok k
  | .error _ => .error .panicked

/-! ## JSON value layer

serde_json is modelled at the JSON value level: to_string on a SavedState
produces the object with the three fields, from_str parses it back.  The
text layer of serde_json is external to this repository. -/

/-- A small JSON value AST, enough for the persisted checkpoint. -/
inductive JValue
  | jnull
  | jstr (s : String)
  | jobj (fields : List (String × JValue))

/-- Lookup of a field by name inside a JSON object. -/
def jLookup (fields : List (String × JValue)) (key : String) : Option JValue :=
  match fields with
  | [] => none
  | (k, v) :: rest => if k = key then some v else jLookup rest key

/-- Serialization of an optional signature. -/
def serOptSig : Option Sig → JValue
  | none => .jnull
  | some s => .jstr s

/-- Deserialization of an optional signature. -/
def deOptSig : JValue → Option (Option Sig)
  | .jnull => some none
  | .jstr s => some (some s)
  | .jobj _ => none

namespace SignaturesLoader

/-- Command enum of signatures_loader.rs. -/
inductive Command
  | Start (config : SolanaRpcClientConfig)
  | Stop
  | Load (before until_bound : Option Sig)
deriving DecidableEq

/-- Message enum of signatures_loader.rs. -/
inductive Message
  | Started
  | Stopped
  | AlreadyStarted
  | AlreadyStopped
deriving DecidableEq

/-- SignaturesLoaderState enum. -/
inductive SignaturesLoaderState
  | NotStarted
  | Started
  | Stopped
deriving DecidableEq

/-- SignaturesLoaderRegistry: the rpc_client handle is represented by the
configuration it was built from, the Db handle by a unit value. -/
structure SignaturesLoaderRegistry where
  state : SignaturesLoaderState
  rpc_client : Option SolanaRpcClientConfig
  db : Option Unit
deriving DecidableEq

/-- The registry as constructed at the top of run(). -/
def initialRegistry : SignaturesLoaderRegistry :=
  { state := .NotStarted, rpc_client := none, db := none }

/-- SavedState: the persisted checkpoint of signatures_loader.rs. -/
structure SavedState where
  newest_transaction : Option Sig
  before : Option Sig
  until_bound : Option Sig
deriving DecidableEq

/-- serde_json serialization of SavedState at the JSON value level. -/
def serSavedState (s : SavedState) : JValue :=
  .jobj [("newest_transaction", serOptSig s.newest_transaction),
         ("before", serOptSig s.before),
         ("until", serOptSig s.until_bound)]

/-- serde_json deserialization of SavedState at the JSON value level. -/
def deSavedState : JValue → Option SavedState
  | .jobj fields =>
    match jLookup fields "newest_transaction", jLookup fields "before",
          jLookup fields "until" with
    | some nt, some b, some u =>
      match deOptSig nt, deOptSig b, deOptSig u with
      | some nt, some b, some u => some ⟨nt, b, u⟩
      | _, _, _ => none
    | _, _, _ => none
  | _ => none

/-- Possible outcomes of reading the checkpoint file. -/
inductive ReadError
  | absent
  | unreadable
deriving DecidableEq

/-- load_state of signatures_loader.rs: on any read error the default
all-None state is returned; on a successful read the content is parsed
with serde_json from_str and the result unwrapped, so an unparseable
content panics. -/
def load_state (file : Except ReadError JValue) : Except Panic SavedState :=
  match file with
  | .ok stored =>
    match deSavedState stored with
    | some st => .ok st
    | none => .error .panicked
  | .error _ => .ok { newest_transaction := none, before := none, until_bound := none }

/-- I/O error of the checkpoint write. -/
inductive IoError
  | writeFailed
deriving DecidableEq

/-- save_state of signatures_loader.rs: serializes the state with
serde_json to_string and writes it; the file write may fail, in which
case the error is propagated.  On success the written content is the
serialized state. -/
def save_state (writeOk : Bool) (s : SavedState) : Except IoError JValue :=
  if writeOk then .ok (serSavedState s) else .error .writeFailed

/-- The per-tick cursor update of run(), lines 109 to 125 of
signatures_loader.rs, applied to the current SavedState and the page
returned by load_signatures_batch.  The batch length constant lives in
indexer_core and is a parameter here.  Returns none for the panic of the
unwrap on an empty page in the full-page branch. -/
def cursorStep (batchLen : Nat) (s : SavedState) (page : List SignatureRecord) :
    Option SavedState :=
  let s1 :=
    match s.newest_transaction, page with
    | none, r :: _ => { s with newest_transaction := some r.signature }
    | _, _ => s
  if page.length < batchLen then
    some { newest_transaction := none,
           before := none,
           until_bound :=
             if s1.newest_transaction.isSome then s1.newest_transaction
             else s1.until_bound }
  else
    match page.getLast? with
    | some r => some { s1 with before := some r.signature }
    | none => none

/-- The newest_transaction anchor after step one of the tick: set to the
first page entry when previously unset and the page is non-empty. -/
def anchoredNewest (s : SavedState) (page : List SignatureRecord) : Option Sig :=
  match s.newest_transaction, page with
  | none, r :: _ => some r.signature
  | n, _ => n

/-- Observable startup side effects of the start function, in source
order: rpc client construction, state transition, db handle creation. -/
inductive StartEffect
  | rpcClientConstructed
  | transitionedToStarted
  | dbCreated
deriving DecidableEq

/-- The start function of signatures_loader.rs.  When already Started it
only sends AlreadyStarted; otherwise it constructs the rpc client, moves
to Started, creates the Db handle and sends Started.  Every send result
is unwrapped, so with no message receivers the task panics. -/
def start (config : SolanaRpcClientConfig) (receivers : Nat)
    (r : SignaturesLoaderRegistry) :
    Except Panic (SignaturesLoaderRegistry × List Message × List StartEffect) :=
  if r.state = .Started then
    match broadcastSend receivers with
    | .ok _ => .ok (r, [.AlreadyStarted], [])
    | .error _ => .error .panicked
  else
    match broadcastSend receivers with
    | .ok _ =>
      .ok ({ state := .Started, rpc_client := some config, db := some () },
           [.Started],
           [.rpcClientConstructed, .transitionedToStarted, .dbCreated])
    | .error _ => .error .panicked

/-- process_command of signatures_loader.rs: Start dispatches to start,
Stop and Load are unhandled match arms. -/
def process_command (command : Command) (receivers : Nat)
    (r : SignaturesLoaderRegistry) :
    Except Panic (SignaturesLoaderRegistry × List Message × List StartEffect) :=
  match command with
  | .Start config => start config receivers r
  | .Stop => .ok (r, [], [])
  | .Load _ _ => .ok (r, [], [])

/-- Two consecutive Start commands processed from the initial registry,
with accumulated messages and effects. -/
def startTwice (config : SolanaRpcClientConfig) (receivers : Nat) :
    Except Panic (SignaturesLoaderRegistry × List Message × List StartEffect) := do
  let (r1, m1, e1) ← start config receivers initialRegistry
  let (r2, m2, e2) ← start config receivers r1
  pure (r2, m1 ++ m2, e1 ++ e2)

/-- The external inputs one loop iteration of run() can observe: at most
one pending command, the stop broadcast flag, and the page the rpc
client would return this tick. -/
structure TickInput where
  command : Option Command
  stopSignal : Bool
  page : List SignatureRecord

/-- Result of running the loop of run() over a list of tick inputs. -/
structure LoopResult where
  registry : SignaturesLoaderRegistry
  saved : SavedState
  messages : List Message
  exitedViaStop : Bool
deriving DecidableEq

/-- The loop of run() in signatures_loader.rs, lines 86 to 135, driven by
a list of per-tick inputs.  Each iteration drains at most one command,
breaks if the stop broadcast is observed, and otherwise performs the
cursor update tick when Started (the enqueue into the db queue is a call
into the external storage collaborator and is not recorded here).  The
unwrap of rpc_client when Started is modelled as a panic when the handle
is missing. -/
def runLoop (batchLen receivers : Nat) (inputs : List TickInput)
    (r : SignaturesLoaderRegistry) (ss : SavedState) :
    Except Panic LoopResult :=
  match inputs with
  | [] => .ok { registry := r, saved := ss, messages := [], exitedViaStop := false }
  | inp :: rest => do
    let (r1, msgs1, _effs) ←
      match inp.command with
      | some c => process_command c receivers r
      | none => Except.ok (r, [], [])
    if inp.stopSignal then
      .ok { registry := r1, saved := ss, messages := msgs1, exitedViaStop := true }
    else if r1.state = .Started then
      match r1.rpc_client with
      | none => .error .panicked
      | some _ =>
        match cursorStep batchLen ss inp.page with
        | none => .error .panicked
        | some ss1 => do
          let res ← runLoop batchLen receivers rest r1 ss1
          .ok { res with messages := msgs1 ++ res.messages }
    else do
      let res ← runLoop batchLen receivers rest r1 ss
      .ok { res with messages := msgs1 ++ res.messages }

end SignaturesLoader

namespace TransactionsLoader

/-- Command enum of transactions_loader.rs. -/
inductive Command
  | Start (channel_id : Nat) (config : Config)
  | Stop
deriving DecidableEq

/-- Message enum of transactions_loader.rs. -/
inductive Message
  | Started
  | Stopped
  | AlreadyStarted
  | AlreadyStopped
deriving DecidableEq

/-- TransactionsLoaderState enum. -/
inductive TransactionsLoaderState
  | NotStarted
  | Started
  | Stopped
deriving DecidableEq

/-- TransactionsLoaderRegistry: handles are represented by the
configuration values they were built from. -/
structure TransactionsLoaderRegistry where
  channel_id : Nat
  state : TransactionsLoaderState
  rpc_client : Option SolanaRpcClientConfig
  db : Option StorageConfig
deriving DecidableEq

/-- The registry as constructed at the top of run() for a given pool slot. -/
def initialRegistry (channel_id : Nat) : TransactionsLoaderRegistry :=
  { channel_id := channel_id, state := .NotStarted, rpc_client := none, db := none }

/-- Observable startup side effects of the start function, in source
order: rpc client construction, state transition, storage handle creation. -/
inductive StartEffect
  | rpcClientConstructed
  | transitionedToStarted
  | dbCreated
deriving DecidableEq

/-- The start function of transactions_loader.rs.  Same shape as the
signatures loader: AlreadyStarted when Started, otherwise construct the
handles, move to Started and send Started; sends are unwrapped. -/
def start (config : Config) (receivers : Nat) (r : TransactionsLoaderRegistry) :
    Except Panic (TransactionsLoaderRegistry × List Message × List StartEffect) :=
  if r.state = .Started then
    match broadcastSend receivers with
    | .ok _ => .ok (r, [.AlreadyStarted], [])
    | .error _ => .error .panicked
  else
    match broadcastSend receivers with
    | .ok _ =>
      .ok ({ r with
               state := .Started,
               rpc_client := some config.solana_rpc_client_config,
               db := some config.storage_config },
           [.Started],
           [.rpcClientConstructed, .transitionedToStarted, .dbCreated])
    | .error _ => .error .panicked

/-- process_command of transactions_loader.rs: a Start is honored only
when its channel_id matches the registry's own; Stop is an unhandled arm. -/
def process_command (command : Command) (receivers : Nat)
    (r : TransactionsLoaderRegistry) :
    Except Panic (TransactionsLoaderRegistry × List Message × List StartEffect) :=
  match command with
  | .Start channel_id config =>
    if r.channel_id = channel_id then start config receivers r
    else .ok (r, [], [])
  | .Stop => .ok (r, [], [])

/-- Two consecutive Start commands processed from the initial registry of
a pool slot, with accumulated messages and effects. -/
def startTwice (config : Config) (receivers channel_id : Nat) :
    Except Panic (TransactionsLoaderRegistry × List Message × List StartEffect) := do
  let (r1, m1, e1) ← start config receivers (initialRegistry channel_id)
  let (r2, m2, e2) ← start config receivers r1
  pure (r2, m1 ++ m2, e1 ++ e2)

/-- Errors of the storage collaborator's dequeue call. -/
inductive StorageError
  | dequeueFailed
deriving DecidableEq

/-- Errors of the RPC collaborator's transaction fetch. -/
inductive RpcError
  | notFound
  | rpcFailed
deriving DecidableEq

/-- Calls a tick issues against the storage collaborator, in order. -/
inductive StorageOp
  | store (signature : Sig) (transaction : Tx)
  | markLoaded (record_id : Int)
deriving DecidableEq

/-- The tick body of run() in transactions_loader.rs, lines 79 to 120:
dequeue under the storage lock, and when a signature was returned fetch
its transaction; on fetch success and with a db handle, store the body
and then mark the record loaded.  The unwraps of rpc_client and of
record_id are modelled as panics when absent. -/
def tick (r : TransactionsLoaderRegistry)
    (dequeued : Except StorageError (Int × Option Sig))
    (rpcResult : Except RpcError Tx) : Except Panic (List StorageOp) :=
  let record_id : Option Int :=
    match dequeued with
    | .ok res => some res.1
    | .error _ => none
  let signature : Option Sig :=
    match dequeued with
    | .ok res => res.2
    | .error _ => none
  match signature with
  | some sig =>
    match r.rpc_client with
    | none => .error .panicked
    | some _ =>
      match rpcResult with
      | .ok transaction =>
        if r.db.isSome then
          match record_id with
          | some rid => .ok [.store sig transaction, .markLoaded rid]
          | none => .error .panicked
        else .ok []
      | .error _ => .ok []
  | none => .ok []

/-- The external inputs one loop iteration of run() can observe. -/
structure TickInput where
  command : Option Command
  stopSignal : Bool
  dequeued : Except StorageError (Int × Option Sig)
  rpcResult : Except RpcError Tx

/-- Result of running the loop of run() over a list of tick inputs. -/
structure LoopResult where
  registry : TransactionsLoaderRegistry
  messages : List Message
  exitedViaStop : Bool
deriving DecidableEq

/-- The loop of run() in transactions_loader.rs, lines 63 to 121, driven
by a list of per-tick inputs: drain at most one command, break on the
stop broadcast, otherwise perform the tick when Started. -/
def runLoop (receivers : Nat) (inputs : List TickInput)
    (r : TransactionsLoaderRegistry) : Except Panic LoopResult :=
  match inputs with
  | [] => .ok { registry := r, messages := [], exitedViaStop := false }
  | inp :: rest => do
    let (r1, msgs1, _effs) ←
      match inp.command with
      | some c => process_command c receivers r
      | none => Except.ok (r, [], [])
    if inp.stopSignal then
      .ok { registry := r1, messages := msgs1, exitedViaStop := true }
    else if r1.state = .Started then do
      let _ops ← tick r1 inp.dequeued inp.rpcResult
      let res ← runLoop receivers rest r1
      .ok { res with messages := msgs1 ++ res.messages }
    else do
      let res ← runLoop receivers rest r1
      .ok { res with messages := msgs1 ++ res.messages }

end TransactionsLoader

namespace StorageQueue

/-- A queue entry as the fetch workers see it: record id plus signature. -/
structure Entry where
  record_id : Int
  signature : Sig
deriving DecidableEq

/-- State of the shared work queue: entries still unclaimed, in queue
order, and the claims already handed out, newest first, each tagged with
the id of the worker that received it. -/
structure QState where
  pending : List Entry
  claimed : List (Nat × Entry)
deriving DecidableEq

/-- Modelled from the spec: get_signature_from_queue of the
indexer_core Storage engine (the dequeue_next operation of section 6),
whose implementation is outside these sources.  Under the shared storage
lock it atomically hands the next unclaimed entry to the calling worker;
on an empty queue nothing changes.  The lock in transactions_loader.rs
lines 82 to 92 makes each such step atomic, so an interleaving of
concurrent workers is a sequence of these steps. -/
def dequeueStep (w : Nat) (q : QState) : QState :=
  match q.pending with
  | [] => q
  | e :: rest => { pending := rest, claimed := (w, e) :: q.claimed }

/-- Runs a schedule: each list element is the id of the worker whose
dequeue critical section comes next. -/
def runSchedule : List Nat → QState → QState
  | [], q => q
  | w :: rest, q => runSchedule rest (dequeueStep w q)

end StorageQueue

namespace Dispatcher

/-- The broadcast of the stop signal at line 50 of dispatcher.rs:
stop_tx send of 0, result unwrapped. -/
def broadcastStopSend (receivers : Nat) : Except Panic Nat :=
  sendUnwrap receivers

/-- The Start command sends at lines 86 and 138 of dispatcher.rs,
results unwrapped. -/
def sendStartCommand (receivers : Nat) : Except Panic Nat :=
  sendUnwrap receivers

/-- Holders of a handle of the shutdown feedback channel's sender side. -/
inductive SenderOwner
  | dispatcherMain
  | txnSetup
  | sigWorker
  | txnWorker (i : Nat)
deriving DecidableEq

/-- Cloning a sender adds a handle for the new owner. -/
def cloneTo (o : SenderOwner) (l : List SenderOwner) : List SenderOwner :=
  o :: l

/-- Dropping a handle removes it from the ledger. -/
def dropHandle (o : SenderOwner) (l : List SenderOwner) : List SenderOwner :=
  l.erase o

/-- Ledger of live stop_fb_tx sender handles after the setup phase of
dispatcher.rs run(), for n transaction loaders: the channel is created
at line 28 (original handle held by run), a clone goes to the signatures
loader task at line 32, a clone goes to the transactions setup function
at line 34, which clones one handle per spawned worker at line 119 and
drops its own at line 141; run drops the original at line 37. -/
def sendersAfterSetup (n : Nat) : List SenderOwner :=
  let l0 := [SenderOwner.dispatcherMain]
  let l1 := cloneTo .sigWorker l0
  let l2 := cloneTo .txnSetup l1
  let l3 := (List.range n).foldl (fun l i => cloneTo (.txnWorker i) l) l2
  let l4 := dropHandle .txnSetup l3
  dropHandle .dispatcherMain l4

/-- State of the shutdown protocol after setup: whether the stop signal
has been broadcast, and which workers have exited their loops (each exit
drops that worker's sender handle). -/
structure ShutdownState where
  stopBroadcast : Bool
  exited : List SenderOwner
deriving DecidableEq

/-- The sender handles still live: every handle of the setup ledger whose
owner has not exited. -/
def liveSenders (n : Nat) (s : ShutdownState) : List SenderOwner :=
  (sendersAfterSetup n).filter (fun o => !(s.exited.contains o))

/-- Modelled from the spec: the mpsc receive at line 53 of dispatcher.rs
returns end of stream exactly when every sender handle has been dropped. -/
def recvEndOfStream (n : Nat) (s : ShutdownState) : Prop :=
  liveSenders n s = []

/-- One step of the shutdown protocol: after the stop broadcast, a worker
that has not yet exited observes the stop signal on its subscriber,
breaks out of its loop, and its sender handle is dropped as its run
function returns. -/
inductive ShutdownStep (n : Nat) : ShutdownState → ShutdownState → Prop
  | workerExits (o : SenderOwner) (s : ShutdownState)
      (hstop : s.stopBroadcast = true)
      (hmem : o ∈ sendersAfterSetup n)
      (hnot : o ∉ s.exited) :
      ShutdownStep n s { stopBroadcast := true, exited := o :: s.exited }

end Dispatcher

/-! ## Theorems -/

/-- Round trip of the optional signature serialization. -/
theorem deOptSig_serOptSig (x : Option Sig) : deOptSig (serOptSig x) = some x := by
  cases x <;> rfl

/-- Round trip of the SavedState serialization at the JSON value level. -/
theorem deSavedState_serSavedState (s : SignaturesLoader.SavedState) :
    SignaturesLoader.deSavedState (SignaturesLoader.serSavedState s) = some s := by
  obtain ⟨nt, b, u⟩ := s
  simp only [SignaturesLoader.serSavedState, SignaturesLoader.deSavedState, jLookup]
  cases nt <;> cases b <;> cases u <;> rfl

/-- C8: Checkpoint round-trip.  For every checkpoint value, a successful
save writes a content from which load returns exactly the saved value. -/
theorem c8_checkpoint_round_trip (s : SignaturesLoader.SavedState) :
    ∃ content, SignaturesLoader.save_state true s = .ok content ∧
      SignaturesLoader.load_state (.ok content) = .ok s := by
  refine ⟨SignaturesLoader.serSavedState s, rfl, ?_⟩
  simp [SignaturesLoader.load_state, deSavedState_serSavedState]

/-- C4 counterexample: a readable checkpoint file whose content does not
parse as a valid checkpoint makes load_state panic (the unwrap of
serde_json from_str) instead of returning the zero checkpoint, so the
claim that the load never fails for every file state is false. -/
theorem c4_counterexample :
    SignaturesLoader.load_state (.ok (JValue.jstr "garbage")) = .error .panicked := rfl

/-- C4 amended: load_state returns the all-None checkpoint on an absent
or unreadable file and never fails there; but on a readable file whose
content does not parse as a checkpoint, it panics. -/
theorem c4_amended_cold_start (e : SignaturesLoader.ReadError) (v : JValue)
    (hv : SignaturesLoader.deSavedState v = none) :
    SignaturesLoader.load_state (.error e) =
      .ok { newest_transaction := none, before := none, until_bound := none } ∧
    SignaturesLoader.load_state (.ok v) = .error .panicked := by
  constructor
  · cases e <;> rfl
  · simp [SignaturesLoader.load_state, hv]

/-- Witness for the amended C4 at concrete inputs. -/
theorem c4_amended_cold_start_witness :
    SignaturesLoader.load_state (.error .absent) =
      .ok { newest_transaction := none, before := none, until_bound := none } ∧
    SignaturesLoader.load_state (.ok (JValue.jstr "x")) = .error .panicked :=
  c4_amended_cold_start SignaturesLoader.ReadError.absent (JValue.jstr "x") rfl

/-- C3: Discovery cursor update per tick.  With the anchored
newest_transaction of step one, a short page seals the sweep: until
becomes the anchor when it is set (otherwise unchanged) and before and
newest_transaction are reset; a full page advances before to the page's
last (oldest) signature and leaves until unchanged. -/
theorem c3_cursor_update (batchLen : Nat) (s : SignaturesLoader.SavedState)
    (page : List SignatureRecord) (hb : 0 < batchLen) :
    (page.length < batchLen →
      SignaturesLoader.cursorStep batchLen s page = some
        { newest_transaction := none,
          before := none,
          until_bound :=
            if (SignaturesLoader.anchoredNewest s page).isSome then
              SignaturesLoader.anchoredNewest s page
            else s.until_bound }) ∧
    (batchLen ≤ page.length →
      ∃ lastRec, page.getLast? = some lastRec ∧
        SignaturesLoader.cursorStep batchLen s page = some
          { newest_transaction := SignaturesLoader.anchoredNewest s page,
            before := some lastRec.signature,
            until_bound := s.until_bound }) := by
  constructor
  · intro hlt
    obtain ⟨nt, b, u⟩ := s
    simp only [SignaturesLoader.cursorStep]
    rw [if_pos hlt]
    cases nt <;> cases page <;> simp [SignaturesLoader.anchoredNewest]
  · intro hge
    have hne : page ≠ [] := by
      intro hnil
      rw [hnil] at hge
      simp at hge
      omega
    obtain ⟨lastRec, hlast⟩ :=
      Option.isSome_iff_exists.mp (List.getLast?_isSome.mpr hne)
    refine ⟨lastRec, hlast, ?_⟩
    obtain ⟨nt, b, u⟩ := s
    simp only [SignaturesLoader.cursorStep]
    rw [if_neg (not_lt.mpr hge)]
    cases nt <;> cases page <;>
      simp_all [SignaturesLoader.anchoredNewest]

/-- Witness for C3 at concrete inputs: a short page with a fresh anchor
seals the sweep, a full page advances the lower bound. -/
theorem c3_cursor_update_witness :
    SignaturesLoader.cursorStep 2
        { newest_transaction := none, before := none, until_bound := none }
        [{ signature := "S1" }] =
      some { newest_transaction := none, before := none, until_bound := some "S1" } ∧
    SignaturesLoader.cursorStep 2
        { newest_transaction := some "S0", before := none, until_bound := none }
        [{ signature := "S1" }, { signature := "S2" }] =
      some { newest_transaction := some "S0", before := some "S2",
             until_bound := none } := by
  constructor
  · have h :=
      (c3_cursor_update 2
        { newest_transaction := none, before := none, until_bound := none }
        [{ signature := "S1" }] (by decide)).1 (by decide)
    simpa [SignaturesLoader.anchoredNewest] using h
  · have h :=
      (c3_cursor_update 2
        { newest_transaction := some "S0", before := none, until_bound := none }
        [{ signature := "S1" }, { signature := "S2" }] (by decide)).2 (by decide)
    obtain ⟨lastRec, hlast, heq⟩ := h
    have hl : lastRec = { signature := "S2" } := by
      simpa using hlast.symm
    rw [hl] at heq
    simpa [SignaturesLoader.anchoredNewest] using heq

/-- C5: Idempotent start.  For both worker kinds, a Start on an already
Started registry sends AlreadyStarted and changes nothing; processing
Start twice from the initial registry yields Started then AlreadyStarted
with the startup side effects performed exactly once. -/
theorem c5_idempotent_start (cfg : SolanaRpcClientConfig) (tcfg : Config)
    (cid receivers : Nat) (h : 0 < receivers) :
    (SignaturesLoader.startTwice cfg receivers =
      .ok ({ state := .Started, rpc_client := some cfg, db := some () },
           [.Started, .AlreadyStarted],
           [.rpcClientConstructed, .transitionedToStarted, .dbCreated])) ∧
    (∀ r : SignaturesLoader.SignaturesLoaderRegistry, r.state = .Started →
      SignaturesLoader.start cfg receivers r = .ok (r, [.AlreadyStarted], [])) ∧
    (TransactionsLoader.startTwice tcfg receivers cid =
      .ok ({ channel_id := cid, state := .Started,
             rpc_client := some tcfg.solana_rpc_client_config,
             db := some tcfg.storage_config },
           [.Started, .AlreadyStarted],
           [.rpcClientConstructed, .transitionedToStarted, .dbCreated])) ∧
    (∀ r : TransactionsLoader.TransactionsLoaderRegistry, r.state = .Started →
      TransactionsLoader.start tcfg receivers r = .ok (r, [.AlreadyStarted], [])) := by
  have h0 : receivers ≠ 0 := Nat.pos_iff_ne_zero.mp h
  refine ⟨?_, ?_, ?_, ?_⟩
  · simp only [SignaturesLoader.startTwice, SignaturesLoader.start,
          SignaturesLoader.initialRegistry, broadcastSend, if_neg h0]
    rfl
  · intro r hr
    simp [SignaturesLoader.start, hr, broadcastSend, h0]
  · simp only [TransactionsLoader.startTwice, TransactionsLoader.start,
          TransactionsLoader.initialRegistry, broadcastSend, if_neg h0]
    rfl
  · intro r hr
    simp [TransactionsLoader.start, hr, broadcastSend, h0]

/-- Witness for C5 at concrete inputs. -/
theorem c5_idempotent_start_witness :
    SignaturesLoader.startTwice "url" 1 =
      .ok ({ state := .Started, rpc_client := some "url", db := some () },
           [.Started, .AlreadyStarted],
           [.rpcClientConstructed, .transitionedToStarted, .dbCreated]) ∧
    TransactionsLoader.startTwice { solana_rpc_client_config := "url",
                                    storage_config := "st" } 1 0 =
      .ok ({ channel_id := 0, state := .Started,
             rpc_client := some "url", db := some "st" },
           [.Started, .AlreadyStarted],
           [.rpcClientConstructed, .transitionedToStarted, .dbCreated]) := by
  have h := c5_idempotent_start "url"
    { solana_rpc_client_config := "url", storage_config := "st" } 0 1 (by decide)
  exact ⟨h.1, h.2.2.1⟩

/-- C6: Fetch-worker tick outcome.  When a Started worker dequeues a
signature, a successful fetch leads to the store of the transaction body
followed by the mark of the record as loaded; a failed fetch issues no
storage call at all. -/
theorem c6_fetch_tick_outcome (r : TransactionsLoader.TransactionsLoaderRegistry)
    (rid : Int) (sig : Sig) (transaction : Tx) (e : TransactionsLoader.RpcError)
    (_hst : r.state = .Started)
    (hdb : r.db.isSome) (hrpc : r.rpc_client.isSome) :
    (TransactionsLoader.tick r (.ok (rid, some sig)) (.ok transaction) =
      .ok [.store sig transaction, .markLoaded rid]) ∧
    (TransactionsLoader.tick r (.ok (rid, some sig)) (.error e) = .ok []) := by
  obtain ⟨c, hc⟩ := Option.isSome_iff_exists.mp hrpc
  constructor <;> simp [TransactionsLoader.tick, hc, hdb]

/-- Witness for C6 at concrete inputs. -/
theorem c6_fetch_tick_outcome_witness :
    TransactionsLoader.tick
        { channel_id := 0, state := .Started,
          rpc_client := some "url", db := some "st" }
        (.ok (7, some "S1")) (.ok "body") =
      .ok [.store "S1" "body", .markLoaded 7] ∧
    TransactionsLoader.tick
        { channel_id := 0, state := .Started,
          rpc_client := some "url", db := some "st" }
        (.ok (7, some "S1")) (.error .rpcFailed) = .ok [] :=
  c6_fetch_tick_outcome
    { channel_id := 0, state := .Started, rpc_client := some "url", db := some "st" }
    7 "S1" "body" TransactionsLoader.RpcError.rpcFailed rfl rfl rfl

/-- C7: Per-instance command filtering.  A Start command whose channel id
does not match the instance leaves the registry unchanged and sends no
message; a matching Start is exactly the start transition. -/
theorem c7_channel_filter (cid : Nat) (tcfg : Config)
    (receivers : Nat) (r : TransactionsLoader.TransactionsLoaderRegistry) :
    (r.channel_id ≠ cid →
      TransactionsLoader.process_command (.Start cid tcfg) receivers r =
        .ok (r, [], [])) ∧
    (r.channel_id = cid →
      TransactionsLoader.process_command (.Start cid tcfg) receivers r =
        TransactionsLoader.start tcfg receivers r) := by
  constructor <;> intro h <;> simp [TransactionsLoader.process_command, h]

/-- Witness for C7 at concrete inputs. -/
theorem c7_channel_filter_witness :
    TransactionsLoader.process_command
        (.Start 2 { solana_rpc_client_config := "url", storage_config := "st" }) 1
        (TransactionsLoader.initialRegistry 0) =
      .ok (TransactionsLoader.initialRegistry 0, [], []) :=
  (c7_channel_filter 2 { solana_rpc_client_config := "url", storage_config := "st" }
    1 (TransactionsLoader.initialRegistry 0)).1 (by decide)

/-- C9 counterexample: the stop broadcast of dispatcher.rs line 50 has
its send result unwrapped, so with no receivers remaining the send
failure terminates (panics) the dispatcher task, contradicting the claim
that a send failure never terminates the sending task. -/
theorem c9_counterexample :
    Dispatcher.broadcastStopSend 0 = .error .panicked := rfl

/-- C9 amended: a send on the command, message or stop channels can fail
only when no receivers remain, and with at least one receiver every such
send succeeds; but every send result is unwrapped, so when the failure
does occur the sending task panics instead of ignoring it. -/
theorem c9_amended_send_unwrap (receivers : Nat) (cfg : SolanaRpcClientConfig)
    (tcfg : Config) (r : SignaturesLoader.SignaturesLoaderRegistry)
    (rt : TransactionsLoader.TransactionsLoaderRegistry) :
    (0 < receivers →
      Dispatcher.broadcastStopSend receivers = .ok receivers ∧
      Dispatcher.sendStartCommand receivers = .ok receivers) ∧
    (Dispatcher.broadcastStopSend receivers = .error .panicked → receivers = 0) ∧
    (SignaturesLoader.start cfg 0 r = .error .panicked) ∧
    (TransactionsLoader.start tcfg 0 rt = .error .panicked) := by
  refine ⟨?_, ?_, ?_, ?_⟩
  · intro h
    have h0 : receivers ≠ 0 := Nat.pos_iff_ne_zero.mp h
    constructor <;>
      simp [Dispatcher.broadcastStopSend, Dispatcher.sendStartCommand,
            sendUnwrap, broadcastSend, h0]
  · intro h
    by_contra h0
    simp [Dispatcher.broadcastStopSend, sendUnwrap, broadcastSend, h0] at h
  · by_cases hs : r.state = .Started <;>
      simp [SignaturesLoader.start, broadcastSend, hs]
  · by_cases hs : rt.state = .Started <;>
      simp [TransactionsLoader.start, broadcastSend, hs]

/-- Witness for the amended C9 at concrete inputs. -/
theorem c9_amended_send_unwrap_witness :
    (Dispatcher.broadcastStopSend 1 = .ok 1 ∧
     Dispatcher.sendStartCommand 1 = .ok 1) ∧
    SignaturesLoader.start "url" 0 SignaturesLoader.initialRegistry =
      .error .panicked := by
  have h := c9_amended_send_unwrap 1 "url"
    { solana_rpc_client_config := "url", storage_config := "st" }
    SignaturesLoader.initialRegistry (TransactionsLoader.initialRegistry 0)
  exact ⟨h.1 (by decide), h.2.2.1⟩

/-- Running a schedule preserves the queue content: the claims in claim
order followed by the remaining pending entries are the original content. -/
theorem runSchedule_content (sched : List Nat) (q : StorageQueue.QState) :
    ((StorageQueue.runSchedule sched q).claimed.map Prod.snd).reverse ++
      (StorageQueue.runSchedule sched q).pending =
    (q.claimed.map Prod.snd).reverse ++ q.pending := by
  induction sched generalizing q with
  | nil => rfl
  | cons w rest ih =>
    rw [StorageQueue.runSchedule, ih]
    obtain ⟨pending, claimed⟩ := q
    cases pending with
    | nil => rfl
    | cons e prest => simp [StorageQueue.dequeueStep]

/-- A schedule at least as long as the pending queue drains it. -/
theorem runSchedule_drains (sched : List Nat) (q : StorageQueue.QState)
    (hlen : q.pending.length ≤ sched.length) :
    (StorageQueue.runSchedule sched q).pending = [] := by
  induction sched generalizing q with
  | nil =>
    have hq : q.pending = [] := List.length_eq_zero.mp (Nat.le_zero.mp hlen)
    simpa [StorageQueue.runSchedule] using hq
  | cons w rest ih =>
    rw [StorageQueue.runSchedule]
    apply ih
    obtain ⟨pending, claimed⟩ := q
    cases pending with
    | nil => simp [StorageQueue.dequeueStep]
    | cons e prest =>
      simp only [StorageQueue.dequeueStep]
      simp at hlen ⊢
      omega

/-- C2: At-most-one claim.  For any interleaving of concurrent fetch
workers, modelled as a schedule of atomic dequeue critical sections, and
any fixed queue of entries with distinct record ids, a schedule long
enough to drain the queue hands every entry to exactly one worker: no
entry is dispatched to two workers and none is lost. -/
theorem c2_at_most_one_claim (entries : List StorageQueue.Entry) (sched : List Nat)
    (hids : (entries.map StorageQueue.Entry.record_id).Nodup)
    (hlen : entries.length ≤ sched.length) :
    (StorageQueue.runSchedule sched ⟨entries, []⟩).pending = [] ∧
    ∀ e ∈ entries, ∃ w,
      (w, e) ∈ (StorageQueue.runSchedule sched ⟨entries, []⟩).claimed ∧
      ∀ w2 e2, (w2, e2) ∈ (StorageQueue.runSchedule sched ⟨entries, []⟩).claimed →
        e2.record_id = e.record_id → w2 = w ∧ e2 = e := by
  have hdrain : (StorageQueue.runSchedule sched ⟨entries, []⟩).pending = [] :=
    runSchedule_drains sched ⟨entries, []⟩ hlen
  have hcontent := runSchedule_content sched ⟨entries, []⟩
  rw [hdrain] at hcontent
  simp only [List.map_nil, List.reverse_nil, List.nil_append, List.append_nil]
    at hcontent
  have hsnd := congrArg List.reverse hcontent
  rw [List.reverse_reverse] at hsnd
  have hnd : ((StorageQueue.runSchedule sched ⟨entries, []⟩).claimed.map
      (fun p => p.2.record_id)).Nodup := by
    have hmm : (StorageQueue.runSchedule sched ⟨entries, []⟩).claimed.map
        (fun p => p.2.record_id) =
        ((StorageQueue.runSchedule sched ⟨entries, []⟩).claimed.map Prod.snd).map
          StorageQueue.Entry.record_id := by
      simp [List.map_map]
    rw [hmm, hsnd, List.map_reverse]
    exact List.nodup_reverse.mpr hids
  refine ⟨hdrain, ?_⟩
  intro e he
  have he2 : e ∈ (StorageQueue.runSchedule sched ⟨entries, []⟩).claimed.map
      Prod.snd := by
    rw [hsnd]
    exact List.mem_reverse.mpr he
  obtain ⟨p, hp, hpe⟩ := List.mem_map.mp he2
  obtain ⟨w, ent⟩ := p
  cases hpe
  refine ⟨w, hp, ?_⟩
  intro w2 e2 hmem2 hrid
  have heq : (w2, e2) = (w, ent) :=
    List.inj_on_of_nodup_map hnd hmem2 hp hrid
  exact ⟨congrArg Prod.fst heq, congrArg Prod.snd heq⟩

/-- Witness for C2 at a concrete queue and schedule. -/
theorem c2_at_most_one_claim_witness :
    (StorageQueue.runSchedule [0, 1]
      { pending := [{ record_id := 1, signature := "S1" },
                    { record_id := 2, signature := "S2" }], claimed := [] }).pending
      = [] ∧
    ∀ e ∈ [({ record_id := 1, signature := "S1" } : StorageQueue.Entry),
           { record_id := 2, signature := "S2" }], ∃ w,
      (w, e) ∈ (StorageQueue.runSchedule [0, 1]
        { pending := [{ record_id := 1, signature := "S1" },
                      { record_id := 2, signature := "S2" }],
          claimed := [] }).claimed ∧
      ∀ w2 e2, (w2, e2) ∈ (StorageQueue.runSchedule [0, 1]
          { pending := [{ record_id := 1, signature := "S1" },
                        { record_id := 2, signature := "S2" }],
            claimed := [] }).claimed →
        e2.record_id = e.record_id → w2 = w ∧ e2 = e :=
  c2_at_most_one_claim
    [{ record_id := 1, signature := "S1" }, { record_id := 2, signature := "S2" }]
    [0, 1] (by decide) (by decide)

/-- Bind of a successful Except computation reduces to the continuation. -/
theorem except_ok_bind {ε α β : Type} (a : α) (f : α → Except ε β) :
    (Except.ok a >>= f : Except ε β) = f a := rfl

/-- Bind of a failed Except computation propagates the error. -/
theorem except_error_bind {ε α β : Type} (e : ε) (f : α → Except ε β) :
    (Except.error e >>= f : Except ε β) = Except.error e := rfl

/-- Command processing of the signatures loader never reaches the
Stopped state and never sends Stopped or AlreadyStopped. -/
theorem sig_process_command_inv (c : SignaturesLoader.Command) (receivers : Nat)
    (r r1 : SignaturesLoader.SignaturesLoaderRegistry)
    (msgs : List SignaturesLoader.Message)
    (effs : List SignaturesLoader.StartEffect)
    (h : SignaturesLoader.process_command c receivers r = .ok (r1, msgs, effs))
    (hr : r.state ≠ .Stopped) :
    r1.state ≠ .Stopped ∧
    SignaturesLoader.Message.Stopped ∉ msgs ∧
    SignaturesLoader.Message.AlreadyStopped ∉ msgs := by
  cases c with
  | Start cfg =>
    simp only [SignaturesLoader.process_command] at h
    unfold SignaturesLoader.start at h
    by_cases hs : r.state = .Started
    · rw [if_pos hs] at h
      cases hbr : broadcastSend receivers with
      | ok k =>
        rw [hbr] at h
        simp only [Except.ok.injEq, Prod.mk.injEq] at h
        obtain ⟨h1, h2, h3⟩ := h
        subst h1
        subst h2
        exact ⟨hr, by simp, by simp⟩
      | error e =>
        rw [hbr] at h
        exact absurd h (by simp)
    · rw [if_neg hs] at h
      cases hbr : broadcastSend receivers with
      | ok k =>
        rw [hbr] at h
        simp only [Except.ok.injEq, Prod.mk.injEq] at h
        obtain ⟨h1, h2, h3⟩ := h
        subst h1
        subst h2
        refine ⟨by simp, by simp, by simp⟩
      | error e =>
        rw [hbr] at h
        exact absurd h (by simp)
  | Stop =>
    simp only [SignaturesLoader.process_command, Except.ok.injEq,
      Prod.mk.injEq] at h
    obtain ⟨h1, h2, h3⟩ := h
    subst h1
    subst h2
    exact ⟨hr, by simp, by simp⟩
  | Load b u =>
    simp only [SignaturesLoader.process_command, Except.ok.injEq,
      Prod.mk.injEq] at h
    obtain ⟨h1, h2, h3⟩ := h
    subst h1
    subst h2
    exact ⟨hr, by simp, by simp⟩

/-- The loop of the signatures loader preserves the absence of the
Stopped state, never emits Stopped or AlreadyStopped, and exits only
when a stop broadcast was observed. -/
theorem sig_runLoop_inv (batchLen receivers : Nat)
    (inputs : List SignaturesLoader.TickInput)
    (r : SignaturesLoader.SignaturesLoaderRegistry)
    (ss : SignaturesLoader.SavedState) (out : SignaturesLoader.LoopResult)
    (h : SignaturesLoader.runLoop batchLen receivers inputs r ss = .ok out)
    (hr : r.state ≠ .Stopped) :
    out.registry.state ≠ .Stopped ∧
    SignaturesLoader.Message.Stopped ∉ out.messages ∧
    SignaturesLoader.Message.AlreadyStopped ∉ out.messages ∧
    (out.exitedViaStop = true → ∃ inp ∈ inputs, inp.stopSignal = true) := by
  induction inputs generalizing r ss out with
  | nil =>
    simp only [SignaturesLoader.runLoop, Except.ok.injEq] at h
    subst h
    simpa using hr
  | cons inp rest ih =>
    simp only [SignaturesLoader.runLoop] at h
    have main : ∀ (r1 : SignaturesLoader.SignaturesLoaderRegistry)
        (msgs1 : List SignaturesLoader.Message),
        r1.state ≠ .Stopped →
        SignaturesLoader.Message.Stopped ∉ msgs1 →
        SignaturesLoader.Message.AlreadyStopped ∉ msgs1 →
        (if inp.stopSignal = true then
          Except.ok { registry := r1, saved := ss, messages := msgs1,
                      exitedViaStop := true }
        else if r1.state = SignaturesLoader.SignaturesLoaderState.Started then
          match r1.rpc_client with
          | none => Except.error Panic.panicked
          | some _ =>
            match SignaturesLoader.cursorStep batchLen ss inp.page with
            | none => Except.error Panic.panicked
            | some ss1 => do
              let res ← SignaturesLoader.runLoop batchLen receivers rest r1 ss1
              Except.ok { registry := res.registry, saved := res.saved,
                          messages := msgs1 ++ res.messages,
                          exitedViaStop := res.exitedViaStop }
        else do
          let res ← SignaturesLoader.runLoop batchLen receivers rest r1 ss
          Except.ok { registry := res.registry, saved := res.saved,
                      messages := msgs1 ++ res.messages,
                      exitedViaStop := res.exitedViaStop }) = Except.ok out →
        out.registry.state ≠ .Stopped ∧
        SignaturesLoader.Message.Stopped ∉ out.messages ∧
        SignaturesLoader.Message.AlreadyStopped ∉ out.messages ∧
        (out.exitedViaStop = true → ∃ i ∈ inp :: rest, i.stopSignal = true) := by
      intro r1 msgs1 hr1 hm1 hm2 htail
      by_cases hstop : inp.stopSignal
      · rw [if_pos hstop] at htail
        simp only [Except.ok.injEq] at htail
        subst htail
        exact ⟨hr1, hm1, hm2, fun _ => ⟨inp, List.mem_cons_self inp rest, hstop⟩⟩
      · rw [if_neg (by simpa using hstop)] at htail
        by_cases hst1 : r1.state = SignaturesLoader.SignaturesLoaderState.Started
        · rw [if_pos hst1] at htail
          cases hrpc : r1.rpc_client with
          | none =>
            simp only [hrpc] at htail
            exact absurd htail (by simp)
          | some cconf =>
            simp only [hrpc] at htail
            cases hcs : SignaturesLoader.cursorStep batchLen ss inp.page with
            | none =>
              simp only [hcs] at htail
              exact absurd htail (by simp)
            | some ss1 =>
              simp only [hcs] at htail
              cases hrec : SignaturesLoader.runLoop batchLen receivers rest r1 ss1 with
              | error err2 =>
                rw [hrec, except_error_bind] at htail
                exact absurd htail (by simp)
              | ok res2 =>
                rw [hrec, except_ok_bind] at htail
                simp only [Except.ok.injEq] at htail
                subst htail
                obtain ⟨ih1, ih2, ih3, ih4⟩ := ih r1 ss1 res2 hrec hr1
                refine ⟨ih1, ?_, ?_, ?_⟩
                · simp only [List.mem_append, not_or]
                  exact ⟨hm1, ih2⟩
                · simp only [List.mem_append, not_or]
                  exact ⟨hm2, ih3⟩
                · intro hex
                  obtain ⟨inp2, hmem, hsig⟩ := ih4 hex
                  exact ⟨inp2, List.mem_cons_of_mem inp hmem, hsig⟩
        · rw [if_neg hst1] at htail
          cases hrec : SignaturesLoader.runLoop batchLen receivers rest r1 ss with
          | error err2 =>
            rw [hrec, except_error_bind] at htail
            exact absurd htail (by simp)
          | ok res2 =>
            rw [hrec, except_ok_bind] at htail
            simp only [Except.ok.injEq] at htail
            subst htail
            obtain ⟨ih1, ih2, ih3, ih4⟩ := ih r1 ss res2 hrec hr1
            refine ⟨ih1, ?_, ?_, ?_⟩
            · simp only [List.mem_append, not_or]
              exact ⟨hm1, ih2⟩
            · simp only [List.mem_append, not_or]
              exact ⟨hm2, ih3⟩
            · intro hex
              obtain ⟨inp2, hmem, hsig⟩ := ih4 hex
              exact ⟨inp2, List.mem_cons_of_mem inp hmem, hsig⟩
    cases hc : inp.command with
    | some c =>
      simp only [hc] at h
      cases hproc : SignaturesLoader.process_command c receivers r with
      | error err =>
        rw [hproc, except_error_bind] at h
        exact absurd h (by simp)
      | ok res =>
        rw [hproc, except_ok_bind] at h
        obtain ⟨r1, msgs1, effs1⟩ := res
        simp only [] at h
        have hstep := sig_process_command_inv c receivers r r1 msgs1 effs1 hproc hr
        exact main r1 msgs1 hstep.1 hstep.2.1 hstep.2.2 h
    | none =>
      simp only [hc] at h
      rw [except_ok_bind] at h
      simp only [] at h
      exact main r [] hr (by simp) (by simp) h

/-- Command processing of the transactions loader never reaches the
Stopped state and never sends Stopped or AlreadyStopped. -/
theorem txn_process_command_inv (c : TransactionsLoader.Command) (receivers : Nat)
    (r r1 : TransactionsLoader.TransactionsLoaderRegistry)
    (msgs : List TransactionsLoader.Message)
    (effs : List TransactionsLoader.StartEffect)
    (h : TransactionsLoader.process_command c receivers r = .ok (r1, msgs, effs))
    (hr : r.state ≠ .Stopped) :
    r1.state ≠ .Stopped ∧
    TransactionsLoader.Message.Stopped ∉ msgs ∧
    TransactionsLoader.Message.AlreadyStopped ∉ msgs := by
  cases c with
  | Start cid cfg =>
    simp only [TransactionsLoader.process_command] at h
    by_cases hid : r.channel_id = cid
    · rw [if_pos hid] at h
      unfold TransactionsLoader.start at h
      by_cases hs : r.state = .Started
      · rw [if_pos hs] at h
        cases hbr : broadcastSend receivers with
        | ok k =>
          rw [hbr] at h
          simp only [Except.ok.injEq, Prod.mk.injEq] at h
          obtain ⟨h1, h2, h3⟩ := h
          subst h1
          subst h2
          exact ⟨hr, by simp, by simp⟩
        | error e =>
          rw [hbr] at h
          exact absurd h (by simp)
      · rw [if_neg hs] at h
        cases hbr : broadcastSend receivers with
        | ok k =>
          rw [hbr] at h
          simp only [Except.ok.injEq, Prod.mk.injEq] at h
          obtain ⟨h1, h2, h3⟩ := h
          subst h1
          subst h2
          refine ⟨by simp, by simp, by simp⟩
        | error e =>
          rw [hbr] at h
          exact absurd h (by simp)
    · rw [if_neg hid] at h
      simp only [Except.ok.injEq, Prod.mk.injEq] at h
      obtain ⟨h1, h2, h3⟩ := h
      subst h1
      subst h2
      exact ⟨hr, by simp, by simp⟩
  | Stop =>
    simp only [TransactionsLoader.process_command, Except.ok.injEq,
      Prod.mk.injEq] at h
    obtain ⟨h1, h2, h3⟩ := h
    subst h1
    subst h2
    exact ⟨hr, by simp, by simp⟩

/-- The loop of the transactions loader preserves the absence of the
Stopped state, never emits Stopped or AlreadyStopped, and exits only
when a stop broadcast was observed. -/
theorem txn_runLoop_inv (receivers : Nat)
    (inputs : List TransactionsLoader.TickInput)
    (r : TransactionsLoader.TransactionsLoaderRegistry)
    (out : TransactionsLoader.LoopResult)
    (h : TransactionsLoader.runLoop receivers inputs r = .ok out)
    (hr : r.state ≠ .Stopped) :
    out.registry.state ≠ .Stopped ∧
    TransactionsLoader.Message.Stopped ∉ out.messages ∧
    TransactionsLoader.Message.AlreadyStopped ∉ out.messages ∧
    (out.exitedViaStop = true → ∃ inp ∈ inputs, inp.stopSignal = true) := by
  induction inputs generalizing r out with
  | nil =>
    simp only [TransactionsLoader.runLoop, Except.ok.injEq] at h
    subst h
    simpa using hr
  | cons inp rest ih =>
    simp only [TransactionsLoader.runLoop] at h
    have main : ∀ (r1 : TransactionsLoader.TransactionsLoaderRegistry)
        (msgs1 : List TransactionsLoader.Message),
        r1.state ≠ .Stopped →
        TransactionsLoader.Message.Stopped ∉ msgs1 →
        TransactionsLoader.Message.AlreadyStopped ∉ msgs1 →
        (if inp.stopSignal = true then
          Except.ok { registry := r1, messages := msgs1, exitedViaStop := true }
        else if r1.state = TransactionsLoader.TransactionsLoaderState.Started then do
          let _ops ← TransactionsLoader.tick r1 inp.dequeued inp.rpcResult
          let res ← TransactionsLoader.runLoop receivers rest r1
          Except.ok { registry := res.registry,
                      messages := msgs1 ++ res.messages,
                      exitedViaStop := res.exitedViaStop }
        else do
          let res ← TransactionsLoader.runLoop receivers rest r1
          Except.ok { registry := res.registry,
                      messages := msgs1 ++ res.messages,
                      exitedViaStop := res.exitedViaStop }) = Except.ok out →
        out.registry.state ≠ .Stopped ∧
        TransactionsLoader.Message.Stopped ∉ out.messages ∧
        TransactionsLoader.Message.AlreadyStopped ∉ out.messages ∧
        (out.exitedViaStop = true → ∃ i ∈ inp :: rest, i.stopSignal = true) := by
      intro r1 msgs1 hr1 hm1 hm2 htail
      by_cases hstop : inp.stopSignal
      · rw [if_pos hstop] at htail
        simp only [Except.ok.injEq] at htail
        subst htail
        exact ⟨hr1, hm1, hm2, fun _ => ⟨inp, List.mem_cons_self inp rest, hstop⟩⟩
      · rw [if_neg (by simpa using hstop)] at htail
        by_cases hst1 : r1.state = TransactionsLoader.TransactionsLoaderState.Started
        · rw [if_pos hst1] at htail
          cases htick : TransactionsLoader.tick r1 inp.dequeued inp.rpcResult with
          | error err2 =>
            rw [htick, except_error_bind] at htail
            exact absurd htail (by simp)
          | ok ops =>
            rw [htick, except_ok_bind] at htail
            cases hrec : TransactionsLoader.runLoop receivers rest r1 with
            | error err2 =>
              rw [hrec, except_error_bind] at htail
              exact absurd htail (by simp)
            | ok res2 =>
              rw [hrec, except_ok_bind] at htail
              simp only [Except.ok.injEq] at htail
              subst htail
              obtain ⟨ih1, ih2, ih3, ih4⟩ := ih r1 res2 hrec hr1
              refine ⟨ih1, ?_, ?_, ?_⟩
              · simp only [List.mem_append, not_or]
                exact ⟨hm1, ih2⟩
              · simp only [List.mem_append, not_or]
                exact ⟨hm2, ih3⟩
              · intro hex
                obtain ⟨inp2, hmem, hsig⟩ := ih4 hex
                exact ⟨inp2, List.mem_cons_of_mem inp hmem, hsig⟩
        · rw [if_neg hst1] at htail
          cases hrec : TransactionsLoader.runLoop receivers rest r1 with
          | error err2 =>
            rw [hrec, except_error_bind] at htail
            exact absurd htail (by simp)
          | ok res2 =>
            rw [hrec, except_ok_bind] at htail
            simp only [Except.ok.injEq] at htail
            subst htail
            obtain ⟨ih1, ih2, ih3, ih4⟩ := ih r1 res2 hrec hr1
            refine ⟨ih1, ?_, ?_, ?_⟩
            · simp only [List.mem_append, not_or]
              exact ⟨hm1, ih2⟩
            · simp only [List.mem_append, not_or]
              exact ⟨hm2, ih3⟩
            · intro hex
              obtain ⟨inp2, hmem, hsig⟩ := ih4 hex
              exact ⟨inp2, List.mem_cons_of_mem inp hmem, hsig⟩
    cases hc : inp.command with
    | some c =>
      simp only [hc] at h
      cases hproc : TransactionsLoader.process_command c receivers r with
      | error err =>
        rw [hproc, except_error_bind] at h
        exact absurd h (by simp)
      | ok res =>
        rw [hproc, except_ok_bind] at h
        obtain ⟨r1, msgs1, effs1⟩ := res
        simp only [] at h
        have hstep := txn_process_command_inv c receivers r r1 msgs1 effs1 hproc hr
        exact main r1 msgs1 hstep.1 hstep.2.1 hstep.2.2 h
    | none =>
      simp only [hc] at h
      rw [except_ok_bind] at h
      simp only [] at h
      exact main r [] hr (by simp) (by simp) h

/-- C10: Stopped state is unreachable.  Running either worker's loop
from its initial registry never ends in the Stopped state and never
emits Stopped or AlreadyStopped; the Stop command (and the Load command
of the discovery worker) changes no registry field and sends no message;
and the loop exits only when a stop broadcast was observed. -/
theorem c10_stopped_unreachable :
    (∀ (batchLen receivers : Nat) (inputs : List SignaturesLoader.TickInput)
       (ss0 : SignaturesLoader.SavedState) (out : SignaturesLoader.LoopResult),
       SignaturesLoader.runLoop batchLen receivers inputs
         SignaturesLoader.initialRegistry ss0 = .ok out →
       (out.registry.state = .NotStarted ∨ out.registry.state = .Started) ∧
       SignaturesLoader.Message.Stopped ∉ out.messages ∧
       SignaturesLoader.Message.AlreadyStopped ∉ out.messages ∧
       (out.exitedViaStop = true → ∃ inp ∈ inputs, inp.stopSignal = true)) ∧
    (∀ (receivers : Nat) (r : SignaturesLoader.SignaturesLoaderRegistry),
       SignaturesLoader.process_command .Stop receivers r = .ok (r, [], [])) ∧
    (∀ (receivers : Nat) (r : SignaturesLoader.SignaturesLoaderRegistry)
       (b u : Option Sig),
       SignaturesLoader.process_command (.Load b u) receivers r = .ok (r, [], [])) ∧
    (∀ (receivers cid : Nat) (inputs : List TransactionsLoader.TickInput)
       (out : TransactionsLoader.LoopResult),
       TransactionsLoader.runLoop receivers inputs
         (TransactionsLoader.initialRegistry cid) = .ok out →
       (out.registry.state = .NotStarted ∨ out.registry.state = .Started) ∧
       TransactionsLoader.Message.Stopped ∉ out.messages ∧
       TransactionsLoader.Message.AlreadyStopped ∉ out.messages ∧
       (out.exitedViaStop = true → ∃ inp ∈ inputs, inp.stopSignal = true)) ∧
    (∀ (receivers : Nat) (r : TransactionsLoader.TransactionsLoaderRegistry),
       TransactionsLoader.process_command .Stop receivers r = .ok (r, [], [])) := by
  refine ⟨?_, ?_, ?_, ?_, ?_⟩
  · intro batchLen receivers inputs ss0 out h
    have hinv := sig_runLoop_inv batchLen receivers inputs
      SignaturesLoader.initialRegistry ss0 out h (by decide)
    refine ⟨?_, hinv.2.1, hinv.2.2.1, hinv.2.2.2⟩
    cases hst : out.registry.state with
    | NotStarted => exact Or.inl rfl
    | Started => exact Or.inr rfl
    | Stopped => exact absurd hst hinv.1
  · intro receivers r
    rfl
  · intro receivers r b u
    rfl
  · intro receivers cid inputs out h
    have hinv := txn_runLoop_inv receivers inputs
      (TransactionsLoader.initialRegistry cid) out h
      (by simp [TransactionsLoader.initialRegistry])
    refine ⟨?_, hinv.2.1, hinv.2.2.1, hinv.2.2.2⟩
    cases hst : out.registry.state with
    | NotStarted => exact Or.inl rfl
    | Started => exact Or.inr rfl
    | Stopped => exact absurd hst hinv.1
  · intro receivers r
    rfl

/-- Witness for C10 at a concrete run: one tick that starts the
discovery worker and then observes the stop broadcast. -/
theorem c10_stopped_unreachable_witness :
    (SignaturesLoader.SignaturesLoaderState.Started =
        SignaturesLoader.SignaturesLoaderState.NotStarted ∨
     SignaturesLoader.SignaturesLoaderState.Started =
        SignaturesLoader.SignaturesLoaderState.Started) ∧
    SignaturesLoader.Message.Stopped ∉ [SignaturesLoader.Message.Started] ∧
    SignaturesLoader.Message.AlreadyStopped ∉ [SignaturesLoader.Message.Started] ∧
    (true = true → ∃ inp ∈ [(⟨some (.Start "url"), true, []⟩ :
        SignaturesLoader.TickInput)],
      inp.stopSignal = true) :=
  (c10_stopped_unreachable).1 5 1
    [⟨some (.Start "url"), true, []⟩]
    { newest_transaction := none, before := none, until_bound := none }
    { registry := { state := .Started, rpc_client := some "url", db := some () },
      saved := { newest_transaction := none, before := none, until_bound := none },
      messages := [.Started], exitedViaStop := true }
    rfl

/-- Folding clone steps over a range prepends the cloned handles in
reverse order. -/
theorem foldl_cloneTo (f : Nat → Dispatcher.SenderOwner) (xs : List Nat)
    (acc : List Dispatcher.SenderOwner) :
    xs.foldl (fun l i => Dispatcher.cloneTo (f i) l) acc =
      xs.reverse.map f ++ acc := by
  induction xs generalizing acc with
  | nil => simp
  | cons x xs ih =>
    rw [List.foldl_cons, ih]
    simp [Dispatcher.cloneTo]

/-- After setup, the live shutdown-feedback senders are exactly one
handle per worker: the n transaction loaders and the signatures loader. -/
theorem sendersAfterSetup_eq (n : Nat) :
    Dispatcher.sendersAfterSetup n =
      (List.range n).reverse.map Dispatcher.SenderOwner.txnWorker ++
        [Dispatcher.SenderOwner.sigWorker] := by
  simp only [Dispatcher.sendersAfterSetup]
  rw [foldl_cloneTo Dispatcher.SenderOwner.txnWorker]
  simp only [Dispatcher.cloneTo, Dispatcher.dropHandle]
  have hW1 : Dispatcher.SenderOwner.txnSetup ∉
      (List.range n).reverse.map Dispatcher.SenderOwner.txnWorker := by
    simp
  have hW2 : Dispatcher.SenderOwner.dispatcherMain ∉
      (List.range n).reverse.map Dispatcher.SenderOwner.txnWorker := by
    simp
  rw [List.erase_append_right _ hW1, List.erase_append_right _ hW2]
  rfl

/-- Removing an owner from the exited set filters it out of the live
senders. -/
theorem liveSenders_cons_exited (n : Nat) (o : Dispatcher.SenderOwner)
    (ex : List Dispatcher.SenderOwner) (b b2 : Bool) :
    Dispatcher.liveSenders n { stopBroadcast := b, exited := o :: ex } =
      (Dispatcher.liveSenders n { stopBroadcast := b2, exited := ex }).filter
        (fun x => !(x == o)) := by
  unfold Dispatcher.liveSenders
  rw [List.filter_filter]
  congr 1
  funext x
  simp only [List.contains_cons, Bool.not_or]

/-- After the stop broadcast, the shutdown protocol can always reach a
state in which the barrier receive returns end of stream. -/
theorem shutdown_terminates (n : Nat) : ∀ (m : Nat) (s : Dispatcher.ShutdownState),
    (Dispatcher.liveSenders n s).length ≤ m → s.stopBroadcast = true →
    ∃ t, Relation.ReflTransGen (Dispatcher.ShutdownStep n) s t ∧
      Dispatcher.recvEndOfStream n t := by
  intro m
  induction m with
  | zero =>
    intro s hlen hstop
    exact ⟨s, Relation.ReflTransGen.refl,
      List.length_eq_zero.mp (Nat.le_zero.mp hlen)⟩
  | succ m ih =>
    intro s hlen hstop
    cases hl : Dispatcher.liveSenders n s with
    | nil => exact ⟨s, Relation.ReflTransGen.refl, hl⟩
    | cons o os =>
      have ho : o ∈ Dispatcher.liveSenders n s := by
        rw [hl]
        exact List.mem_cons_self o os
      have hmem : o ∈ Dispatcher.sendersAfterSetup n :=
        List.mem_of_mem_filter ho
      have hnot : o ∉ s.exited := by
        have hf := List.of_mem_filter ho
        simpa using hf
      have hstep : Dispatcher.ShutdownStep n s
          { stopBroadcast := true, exited := o :: s.exited } :=
        Dispatcher.ShutdownStep.workerExits o s hstop hmem hnot
      have hlive2 : Dispatcher.liveSenders n
          { stopBroadcast := true, exited := o :: s.exited } =
          os.filter (fun x => !(x == o)) := by
        rw [liveSenders_cons_exited n o s.exited true s.stopBroadcast]
        have hs : ({ stopBroadcast := s.stopBroadcast, exited := s.exited } :
            Dispatcher.ShutdownState) = s := rfl
        rw [hs, hl]
        simp [List.filter_cons]
      have hlen2 : (Dispatcher.liveSenders n
          { stopBroadcast := true, exited := o :: s.exited }).length ≤ m := by
        rw [hlive2]
        have h1 := List.length_filter_le (fun x => !(x == o)) os
        have h2 : os.length + 1 ≤ m + 1 := by
          have := hlen
          rw [hl] at this
          simpa using this
        omega
      obtain ⟨t, htr, hend⟩ :=
        ih { stopBroadcast := true, exited := o :: s.exited } hlen2 rfl
      exact ⟨t, Relation.ReflTransGen.head hstep htr, hend⟩

/-- C1: Shutdown barrier correctness.  The sender ledger built by the
dispatcher setup holds exactly one handle per worker (n fetch workers
plus the discovery worker, so K equals n plus one); the barrier receive
returns end of stream exactly when every worker owning a handle has
exited, hence never while any handle is live; and after the stop
broadcast the protocol always reaches end of stream (every stuck
post-broadcast state already has it), so the dispatcher cannot hang. -/
theorem c1_shutdown_barrier (n : Nat) (s : Dispatcher.ShutdownState) :
    ((Dispatcher.sendersAfterSetup n).length = n + 1) ∧
    (Dispatcher.sendersAfterSetup n).Nodup ∧
    (∀ o, o ∈ Dispatcher.sendersAfterSetup n ↔
      ((∃ i < n, o = Dispatcher.SenderOwner.txnWorker i) ∨
        o = Dispatcher.SenderOwner.sigWorker)) ∧
    (Dispatcher.recvEndOfStream n s ↔
      ∀ o ∈ Dispatcher.sendersAfterSetup n, o ∈ s.exited) ∧
    (s.stopBroadcast = true →
      ∃ t, Relation.ReflTransGen (Dispatcher.ShutdownStep n) s t ∧
        Dispatcher.recvEndOfStream n t) ∧
    (s.stopBroadcast = true → (∀ t, ¬ Dispatcher.ShutdownStep n s t) →
      Dispatcher.recvEndOfStream n s) := by
  refine ⟨?_, ?_, ?_, ?_, ?_, ?_⟩
  · rw [sendersAfterSetup_eq]
    simp
  · rw [sendersAfterSetup_eq]
    refine List.Nodup.append ?_ (List.nodup_singleton _) ?_
    · exact (List.nodup_reverse.mpr (List.nodup_range n)).map
        (fun a b hab => by injection hab)
    · intro x hx hx2
      rw [List.mem_singleton] at hx2
      subst hx2
      simp at hx
  · intro o
    rw [sendersAfterSetup_eq]
    simp only [List.mem_append, List.mem_map, List.mem_reverse,
      List.mem_range, List.mem_singleton]
    constructor
    · rintro (⟨i, hi, rfl⟩ | rfl)
      · exact Or.inl ⟨i, hi, rfl⟩
      · exact Or.inr rfl
    · rintro (⟨i, hi, rfl⟩ | rfl)
      · exact Or.inl ⟨i, hi, rfl⟩
      · exact Or.inr rfl
  · unfold Dispatcher.recvEndOfStream Dispatcher.liveSenders
    rw [List.filter_eq_nil_iff]
    constructor
    · intro h o hmem
      have := h o hmem
      simpa using this
    · intro h o hmem
      simpa using h o hmem
  · intro hstop
    exact shutdown_terminates n (Dispatcher.liveSenders n s).length s
      (Nat.le_refl _) hstop
  · intro hstop hnostep
    by_contra hne
    cases hl : Dispatcher.liveSenders n s with
    | nil => exact hne hl
    | cons o os =>
      have ho : o ∈ Dispatcher.liveSenders n s := by
        rw [hl]
        exact List.mem_cons_self o os
      have hmem : o ∈ Dispatcher.sendersAfterSetup n :=
        List.mem_of_mem_filter ho
      have hnot : o ∉ s.exited := by
        have hf := List.of_mem_filter ho
        simpa using hf
      exact hnostep { stopBroadcast := true, exited := o :: s.exited }
        (Dispatcher.ShutdownStep.workerExits o s hstop hmem hnot)

/-- Witness for C1 at two workers with nobody exited yet. -/
theorem c1_shutdown_barrier_witness :
    ((Dispatcher.sendersAfterSetup 1).length = 1 + 1) ∧
    (∃ t, Relation.ReflTransGen (Dispatcher.ShutdownStep 1)
        (⟨true, []⟩ : Dispatcher.ShutdownState) t ∧
      Dispatcher.recvEndOfStream 1 t) :=
  ⟨(c1_shutdown_barrier 1 ⟨true, []⟩).1,
   (c1_shutdown_barrier 1 ⟨true, []⟩).2.2.2.2.1 rfl⟩

end DataLoader
